import Mathlib

/-!
Verification of the BMAD-Studio backend core: the workflow file-reference
resolution algorithm (`bmad/workflows.py`) and the markdown story parser and
plan builder (`bmad/artifacts.py`), shallowly embedded in Lean.

Strings are modelled as `List Char` internally (Python `str` methods are
re-implemented over character lists); the filesystem is modelled as an
association list of paths to file contents plus a list of existing
directories, where directory listings are kept in iteration order — the
order `os.scandir` (and hence `pathlib.Path.glob` / `iterdir`) yields
entries, which is unspecified and in particular not necessarily sorted.
-/

set_option autoImplicit false

namespace BMADStudio

/-! ## Python string primitives over `List Char` -/

/-- Whitespace characters stripped by Python `str.strip()`. -/
def pyWsChar (c : Char) : Bool :=
  c = ' ' || c = '\t' || c = '\n' || c = '\r' || c = Char.ofNat 11 || c = Char.ofNat 12

/-- Python `str.strip()`: drop leading and trailing whitespace. -/
def stripL (l : List Char) : List Char :=
  ((l.dropWhile pyWsChar).reverse.dropWhile pyWsChar).reverse

/-- Python `str.lower()` (ASCII case folding, which covers every string the
parser compares). -/
def lowerL (l : List Char) : List Char :=
  l.map Char.toLower

/-- Whether `needle` occurs as a contiguous substring of `hay`
(Python `needle in hay`). -/
def infixOfL (needle : List Char) : List Char → Bool
  | [] => needle.isEmpty
  | c :: t => needle.isPrefixOf (c :: t) || infixOfL needle t

/-- Split a character list at every newline (helper for `pySplitlines`). -/
def splitNL : List Char → List (List Char)
  | [] => [[]]
  | c :: t =>
    if c = '\n' then [] :: splitNL t
    else
      match splitNL t with
      | [] => [[c]]
      | h :: r => (c :: h) :: r

/-- Python `str.splitlines()` restricted to `\n` separators (the only line
separator occurring in the modelled inputs): a trailing newline does not
produce a final empty line, and the empty string yields no lines. -/
def pySplitlines (l : List Char) : List (List Char) :=
  if l = [] then []
  else
    let p := splitNL l
    if p.getLast? = some [] then p.dropLast else p

/-- Join lines with newlines: Python `"\n".join(lines)`. -/
def joinNL (ls : List (List Char)) : List Char :=
  List.intercalate ['\n'] ls

/-! ## The story parser (`_parse_stories_from_markdown`) -/

/-- One entry of the implementation plan's `subtasks` list. -/
structure Subtask where
  id : String
  description : String
  details : String
  service : String
  files_to_modify : List String
  files_to_create : List String
  patterns_from : List String
  acceptance_criteria : List String
deriving DecidableEq, Repr

/-- Zero-padded three-digit decimal rendering (the Python format spec 03d). -/
def pad3 (n : Nat) : String :=
  let ds := Nat.toDigits 10 n
  String.mk (List.replicate (3 - ds.length) '0' ++ ds)

/-- Subtask id for a (0-based) running index: the literal "bmad-" followed
by the successor of the index, zero-padded to three digits. -/
def mkId (n : Nat) : String :=
  "bmad-" ++ pad3 n

/-- Parser state: accumulated subtasks plus the currently open story. -/
structure PState where
  subtasks : List Subtask
  heading : List Char
  body : List (List Char)
  ac : List (List Char)
  inAC : Bool
deriving DecidableEq, Repr

def initPState : PState :=
  { subtasks := [], heading := [], body := [], ac := [], inAC := false }

/-- The parser's `flush()` closure: emit the open story (if any) and reset
all per-story state. -/
def flushF (start : Nat) (s : PState) : PState :=
  if s.heading = [] then
    { subtasks := s.subtasks, heading := [], body := [], ac := [], inAC := false }
  else
    let idx := start + s.subtasks.length
    { subtasks := s.subtasks ++
        [{ id := mkId (idx + 1)
         , description := String.mk (stripL s.heading)
         , details := String.mk (stripL (joinNL s.body))
         , service := "all"
         , files_to_modify := []
         , files_to_create := []
         , patterns_from := []
         , acceptance_criteria := s.ac.map String.mk }]
    , heading := [], body := [], ac := [], inAC := false }

/-- Python `stripped.startswith("## ") or stripped.startswith("### ")`. -/
def headingMarker (stripped : List Char) : Bool :=
  "## ".toList.isPrefixOf stripped || "### ".toList.isPrefixOf stripped

/-- Python `stripped.lstrip("#").strip()`. -/
def headingTextOf (stripped : List Char) : List Char :=
  stripL (stripped.dropWhile (· = '#'))

/-- The heading keywords that prevent a heading from opening a story. -/
def excludedKeywords : List (List Char) :=
  ["acceptance criteria".toList, "tasks".toList, "subtask".toList,
   "notes".toList, "dependencies".toList, "definition of done".toList]

/-- Python `any(kw in heading.lower() for kw in ...)`. -/
def isExcludedHeading (heading : List Char) : Bool :=
  excludedKeywords.any (fun kw => infixOfL kw (lowerL heading))

/-- Python `stripped.startswith(("- ", "* ", "- [ ] "))`. -/
def acBulletMarker (stripped : List Char) : Bool :=
  "- ".toList.isPrefixOf stripped || "* ".toList.isPrefixOf stripped ||
    "- [ ] ".toList.isPrefixOf stripped

/-- The characters stripped from a bullet line: `lstrip("-*[] ")`. -/
def acStripChars : List Char := ['-', '*', '[', ']', ' ']

/-- Python `stripped.lstrip("-*[] ").strip()`. -/
def acTextOf (stripped : List Char) : List Char :=
  stripL (stripped.dropWhile (fun c => acStripChars.contains c))

/-- Python `stripped.lower().startswith("ac:")` or the same with `"given "`. -/
def inlineAcMarker (stripped : List Char) : Bool :=
  "ac:".toList.isPrefixOf (lowerL stripped) ||
    "given ".toList.isPrefixOf (lowerL stripped)

/-- One iteration of the parser's `for line in content.splitlines()` loop. -/
def stepF (start : Nat) (s : PState) (line : List Char) : PState :=
  let stripped := stripL line
  if headingMarker stripped then
    let heading := headingTextOf stripped
    if isExcludedHeading heading then
      { s with inAC := infixOfL "acceptance".toList (lowerL heading) }
    else
      let s' := flushF start s
      { s' with heading := heading }
  else if s.inAC && acBulletMarker stripped then
    let acText := acTextOf stripped
    if acText = [] then s else { s with ac := s.ac ++ [acText] }
  else if inlineAcMarker stripped then
    { s with ac := s.ac ++ [stripped] }
  else if s.heading = [] then s
  else { s with body := s.body ++ [line] }

/-- Run the parser loop over a list of lines and apply the final flush. -/
def parseLinesMd (lines : List (List Char)) (start : Nat) : List Subtask :=
  (flushF start (lines.foldl (stepF start) initPState)).subtasks

/-- Source `_parse_stories_from_markdown(content, start_index)`. -/
def parse_stories_from_markdown (content : String) (start : Nat) : List Subtask :=
  parseLinesMd (pySplitlines content.toList) start

/-! ## Filesystem model

A path is a list of components. `files` maps paths to contents (first match
wins; writes replace in place, new files are appended, so the list order is
creation order — the iteration order a directory scan yields). `dirs` lists
the directories that exist. -/

abbrev FsPath := List String

structure FS where
  files : List (FsPath × String)
  dirs : List FsPath
deriving DecidableEq, Repr

def setFileEntry : List (FsPath × String) → FsPath → String → List (FsPath × String)
  | [], p, c => [(p, c)]
  | e :: t, p, c => if e.1 = p then (p, c) :: t else e :: setFileEntry t p c

/-- Content of the file at `p`, if a file exists there. -/
def FS.fileContent (fs : FS) (p : FsPath) : Option String :=
  (fs.files.find? (·.1 == p)).map (·.2)

def FS.fileExistsAt (fs : FS) (p : FsPath) : Bool :=
  (fs.fileContent p).isSome

def FS.isDirAt (fs : FS) (p : FsPath) : Bool :=
  fs.dirs.contains p

/-- Python `Path.exists()`: true for files and directories alike. -/
def FS.existsAt (fs : FS) (p : FsPath) : Bool :=
  fs.fileExistsAt p || fs.isDirAt p

/-- Names of the files directly inside directory `p`, in iteration order
(the unspecified order of `os.scandir`, modelled by the stored order). -/
def FS.listDir (fs : FS) (p : FsPath) : List String :=
  fs.files.filterMap (fun e => if e.1.dropLast == p then e.1.getLast? else none)

/-- Python `Path.write_text`: overwrite, or create at the end of the directory. -/
def FS.writeFile (fs : FS) (p : FsPath) (c : String) : FS :=
  { fs with files := setFileEntry fs.files p c }

/-- Python `Path.mkdir(exist_ok=True)` for one directory (parent creation is not
modelled; no modelled operation consults parents of registered paths). -/
def FS.addDir (fs : FS) (p : FsPath) : FS :=
  if fs.dirs.contains p then fs else { fs with dirs := fs.dirs ++ [p] }

/-! ## The artifact store (`bmad/artifacts.py`) -/

/-- Table `ARTIFACT_FILES`: recognized artifact types and their file names. -/
def ARTIFACT_FILES : List (String × String) :=
  [("product_brief", "product-brief.md"),
   ("prd", "prd.md"),
   ("ux_design", "ux-design.md"),
   ("architecture", "architecture.md"),
   ("epics", "epics.md"),
   ("stories", "stories.md"),
   ("sprint_plan", "sprint-plan.md"),
   ("readiness_report", "readiness-report.md")]

/-- Python dict get on the table, defaulting to the type name plus ".md". -/
def artifactFilename (t : String) : String :=
  ((ARTIFACT_FILES.find? (·.1 == t)).map (·.2)).getD (t ++ ".md")

/-- The subdirectory `save_artifact` writes a given artifact type to. -/
def artifactSubdir (t : String) : String :=
  if t ∈ ["product_brief", "prd", "ux_design", "architecture", "readiness_report"] then
    "planning"
  else if t ∈ ["epics", "stories", "sprint_plan"] then
    "stories"
  else
    "reviews"

/-- Source `save_artifact(spec_dir, artifact_type, content)`. -/
def save_artifact (fs : FS) (specDir : FsPath) (t : String) (content : String) : FS :=
  let subdir := specDir ++ ["bmad", artifactSubdir t]
  (fs.addDir subdir).writeFile (subdir ++ [artifactFilename t]) content

/-- Source `load_artifact(spec_dir, artifact_type)`: search planning, stories,
reviews, then the bmad root, returning the first hit. -/
def load_artifact (fs : FS) (specDir : FsPath) (t : String) : Option String :=
  let root := specDir ++ ["bmad"]
  let fname := artifactFilename t
  ([root ++ ["planning", fname], root ++ ["stories", fname],
    root ++ ["reviews", fname], root ++ [fname]]).findSome? fs.fileContent

/-- Python `a or b` on strings (`""` is falsy). `load_artifact`'s `None`
result is collapsed to `""`, which is sound here because the source line
`stories_content or epics_content or ""` treats `None` and `""` alike and
defaults to `""`. -/
def pyOrStr (a b : String) : String :=
  if a = "" then b else a

/-- Source line `source_content = stories_content or epics_content or ""`. -/
def source_content (fs : FS) (specDir : FsPath) : String :=
  pyOrStr ((load_artifact fs specDir "stories").getD "")
    ((load_artifact fs specDir "epics").getD "")

/-- Lexicographic `≤` on character lists by code point — the order Python
uses to compare strings. -/
def lexLe : List Char → List Char → Bool
  | [], _ => true
  | _ :: _, [] => false
  | a :: as, b :: bs => if a = b then lexLe as bs else a.val < b.val

/-- Python string `<=`. -/
def pyStrLe (a b : String) : Bool :=
  lexLe a.toList b.toList

/-- Insert into a sorted list of strings (helper for `sortedPy`). -/
def insertSorted (a : String) : List String → List String
  | [] => [a]
  | b :: t => if pyStrLe a b then a :: b :: t else b :: insertSorted a t

/-- Python `sorted()` on strings (lexicographic insertion sort). -/
def sortedPy (l : List String) : List String :=
  l.foldr insertSorted []

/-- One iteration of the loop over individual story files: parse the file
at the running index, extend the subtasks, advance the index. -/
def storyFileFold (fs : FS) (storiesDir : FsPath) (p : List Subtask × Nat)
    (nm : String) : List Subtask × Nat :=
  let parsed := parse_stories_from_markdown
    ((fs.fileContent (storiesDir ++ [nm])).getD "") p.2
  (p.1 ++ parsed, p.2 + parsed.length)

/-- Source `stories_to_implementation_plan`, restricted to the `subtasks` list it
computes (the surrounding metadata carries a wall-clock timestamp and the
plan is then serialized to disk; neither affects the subtasks). -/
def stories_to_implementation_plan (fs : FS) (specDir : FsPath) : List Subtask :=
  let storiesDir := specDir ++ ["bmad", "stories"]
  let src := source_content fs specDir
  let first := if src = "" then [] else parse_stories_from_markdown src 0
  let n := first.length
  if fs.isDirAt storiesDir then
    let names := sortedPy ((fs.listDir storiesDir).filter
      (fun nm => ".md".toList.isSuffixOf nm.toList))
    let kept := names.filter (fun nm => !(ARTIFACT_FILES.map (·.2)).contains nm)
    (kept.foldl (storyFileFold fs storiesDir) (first, n)).1
  else first

/-! ## The workflow resolver (`bmad/workflows.py`) -/

/-- Values of the loaded workflow dictionary: paths and resolved references,
raw YAML strings, and anything else (`vother` marks a non-string YAML value,
which the reference resolution skips). -/
inductive WVal where
  | vpath : FsPath → WVal
  | vnone : WVal
  | vstr : String → WVal
  | vother : WVal
deriving DecidableEq, Repr

abbrev WDict := List (String × WVal)

def dictGet (d : WDict) (k : String) : Option WVal :=
  (d.find? (·.1 == k)).map (·.2)

/-- Python dict assignment: replace in place, or append a new key. -/
def dictSet : WDict → String → WVal → WDict
  | [], k, v => [(k, v)]
  | e :: t, k, v => if e.1 = k then (k, v) :: t else e :: dictSet t k v

/-- Python `d.update(es)`. -/
def dictUpdate (d : WDict) (es : WDict) : WDict :=
  es.foldl (fun a e => dictSet a e.1 e.2) d

/-- Python `ref.rsplit("/", 1)[-1] if "/" in ref else ref`: the text after the last
slash (the whole string when there is none). -/
def lastSegment (s : String) : String :=
  String.mk ((s.toList.reverse.takeWhile (· ≠ '/')).reverse)

/-- The `convention_names` table of `_resolve_ref` (`.get(key, [])`). -/
def conventionNames (k : String) : List String :=
  if k = "instructions" then ["instructions.xml", "instructions.md"]
  else if k = "validation" then ["checklist.md", "validation.md"]
  else if k = "checklist" then ["checklist.md"]
  else if k = "template" then ["template.md"]
  else []

/-- fnmatch of `name` against the glob pattern `*<key>*<ext>`: `name` ends
with `ext` and contains `key` before that suffix. (`pathlib.Path.glob` does
not exclude dot-files, and this pattern contains no slash.) -/
def globMatch (key ext : String) (name : String) : Bool :=
  ext.toList.isSuffixOf name.toList &&
    infixOfL key.toList (name.toList.take (name.toList.length - ext.toList.length))

/-- First loop of `_resolve_ref`: explicit string keys from the YAML data. -/
def yamlRefStage (fs : FS) (wdir : FsPath) (data : WDict) (keys : List String) :
    Option FsPath :=
  keys.findSome? (fun key =>
    match dictGet data key with
    | some (WVal.vstr s) =>
      if s = "" then none
      else
        let candidate := wdir ++ [lastSegment s]
        if fs.existsAt candidate then some candidate else none
    | _ => none)

/-- Second loop of `_resolve_ref`: convention file names. -/
def conventionStage (fs : FS) (wdir : FsPath) (keys : List String) : Option FsPath :=
  keys.findSome? (fun key =>
    (conventionNames key).findSome? (fun name =>
      let candidate := wdir ++ [name]
      if fs.existsAt candidate then some candidate else none))

/-- The (key, extension) pairs the glob loop scans, in scan order. -/
def globPairs (keys : List String) : List (String × String) :=
  (keys.map (fun k => [(k, ".md"), (k, ".xml")])).flatten

/-- The list of glob matches for the key and extension, in directory order. -/
def globMatchesIn (fs : FS) (wdir : FsPath) (key ext : String) : List String :=
  (fs.listDir wdir).filter (globMatch key ext)

/-- Third loop of `_resolve_ref`: glob fallback, first match returned. -/
def globStage (fs : FS) (wdir : FsPath) (keys : List String) : Option FsPath :=
  (globPairs keys).findSome? (fun pr =>
    (globMatchesIn fs wdir pr.1 pr.2).head?.map (fun m => wdir ++ [m]))

/-- Source `_resolve_ref(workflow_dir, data, *keys)`. -/
def resolve_ref (fs : FS) (wdir : FsPath) (data : WDict) (keys : List String) :
    Option FsPath :=
  match yamlRefStage fs wdir data keys with
  | some p => some p
  | none =>
    match conventionStage fs wdir keys with
    | some p => some p
    | none => globStage fs wdir keys

/-- Table `PHASE_WORKFLOW_MAP` from `bmad/config.py`. -/
def PHASE_WORKFLOW_MAP : List (String × (String × String)) :=
  [("product_brief", ("1-analysis", "create-product-brief")),
   ("research", ("1-analysis", "research")),
   ("prd", ("2-planning", "create-prd")),
   ("ux_design", ("2-planning", "create-ux-design")),
   ("architecture", ("3-solutioning", "create-architecture")),
   ("epics_stories", ("3-solutioning", "create-epics-and-stories")),
   ("implementation_readiness", ("3-solutioning", "check-implementation-readiness")),
   ("sprint_planning", ("4-implementation", "sprint-planning")),
   ("create_story", ("4-implementation", "create-story")),
   ("dev_story", ("4-implementation", "dev-story")),
   ("code_review", ("4-implementation", "code-review")),
   ("quick_spec", ("quick-flow", "quick-spec")),
   ("quick_dev", ("quick-flow", "quick-dev"))]

def phaseWorkflowLookup (phase : String) : Option (String × String) :=
  (PHASE_WORKFLOW_MAP.find? (·.1 == phase)).map (·.2)

/-- The two failure modes of `load_workflow`'s directory resolution:
`ValueError` ("workflow_name required", the spec's ConfigurationError) and
`FileNotFoundError` (the spec's NotFoundError). -/
inductive WorkflowLoadErr where
  | configurationRequired
  | workflowDirNotFound
deriving DecidableEq, Repr

/-- The (phase_dir, workflow_name) pair `load_workflow` settles on, `none`
when it raises the configuration error: with no explicit name, the pair
comes from the map (or fails); with an explicit name, the phase argument is
used as the directory name unchanged. -/
def resolvedPair (phase : String) (workflowName : Option String) :
    Option (String × String) :=
  match workflowName with
  | none => phaseWorkflowLookup phase
  | some n => some (phase, n)

def refVal : Option FsPath → WVal
  | some p => WVal.vpath p
  | none => WVal.vnone

/-- The result dictionary after seeding `workflow_dir` and merging the
definition file: `workflow.yaml` is parsed (by `yparse`, which models
`yaml.safe_load(raw)` with a `None` result replaced by the empty dict) and
merged; otherwise the raw text of `workflow.md`
is stored under `workflow_content`; otherwise nothing is added. -/
def mergeStage (fs : FS) (wdir : FsPath) (yparse : String → WDict) : WDict :=
  let r0 : WDict := [("workflow_dir", WVal.vpath wdir)]
  match fs.fileContent (wdir ++ ["workflow.yaml"]) with
  | some raw => dictUpdate r0 (yparse raw)
  | none =>
    match fs.fileContent (wdir ++ ["workflow.md"]) with
    | some md => dictSet r0 "workflow_content" (WVal.vstr md)
    | none => r0

/-- Source `load_workflow(phase, workflow_name, workflows_dir)`; `yparse` models
the YAML parser, `base` the resolved root workflows directory. -/
def load_workflow (fs : FS) (phase : String) (workflowName : Option String)
    (base : FsPath) (yparse : String → WDict) : Except WorkflowLoadErr WDict :=
  match resolvedPair phase workflowName with
  | none => .error .configurationRequired
  | some pr =>
    let wdir := base ++ [pr.1, pr.2]
    if fs.isDirAt wdir then
      let r1 := mergeStage fs wdir yparse
      let r2 := dictSet r1 "instructions_path"
        (refVal (resolve_ref fs wdir r1 ["instructions"]))
      let r3 := dictSet r2 "checklist_path"
        (refVal (resolve_ref fs wdir r2 ["validation", "checklist"]))
      let r4 := dictSet r3 "template_path"
        (refVal (resolve_ref fs wdir r3 ["template"]))
      .ok r4
    else .error .workflowDirNotFound

/-! ## Parser lemmas -/

/-- A line that opens a story: a level-2/3 heading whose text is not
excluded by the keyword list. -/
def isStoryOpen (line : List Char) : Bool :=
  headingMarker (stripL line) && !isExcludedHeading (headingTextOf (stripL line))

theorem flushF_resets (start : Nat) (s : PState) :
    (flushF start s).heading = [] ∧ (flushF start s).body = [] ∧
      (flushF start s).ac = [] ∧ (flushF start s).inAC = false := by
  unfold flushF
  split <;> simp

theorem stepF_not_open (start : Nat) (s : PState) (l : List Char)
    (h : isStoryOpen l = false) :
    (stepF start s l).subtasks = s.subtasks ∧ (stepF start s l).heading = s.heading := by
  unfold stepF
  by_cases h1 : headingMarker (stripL l) = true
  · have h2 : isExcludedHeading (headingTextOf (stripL l)) = true := by
      simpa [isStoryOpen, h1] using h
    simp [h1, h2]
  · by_cases h3 : (s.inAC && acBulletMarker (stripL l)) = true
    · by_cases h4 : acTextOf (stripL l) = []
      · simp [h1, h3, h4]
      · simp [h1, h3, h4]
    · by_cases h5 : inlineAcMarker (stripL l) = true
      · simp [h1, h3, h5]
      · by_cases h6 : s.heading = []
        · simp [h1, h3, h5, h6]
        · simp [h1, h3, h5, h6]

theorem stepF_noheading (start : Nat) (s : PState) (l : List Char)
    (hl : isStoryOpen l = false) (hh : s.heading = []) :
    ∃ a i, stepF start s l =
      { subtasks := s.subtasks, heading := [], body := s.body, ac := a, inAC := i } := by
  obtain ⟨ss, sh, sb, sa, si⟩ := s
  simp only at hh
  subst hh
  unfold stepF
  by_cases h1 : headingMarker (stripL l) = true
  · have h2 : isExcludedHeading (headingTextOf (stripL l)) = true := by
      simpa [isStoryOpen, h1] using hl
    exact ⟨sa, infixOfL "acceptance".toList (lowerL (headingTextOf (stripL l))),
      by simp [h1, h2]⟩
  · by_cases h3 : (si && acBulletMarker (stripL l)) = true
    · by_cases h4 : acTextOf (stripL l) = []
      · exact ⟨sa, si, by simp [h1, h3, h4]⟩
      · exact ⟨sa ++ [acTextOf (stripL l)], si, by simp [h1, h3, h4]⟩
    · by_cases h5 : inlineAcMarker (stripL l) = true
      · exact ⟨sa ++ [stripL l], si, by simp [h1, h3, h5]⟩
      · exact ⟨sa, si, by simp [h1, h3, h5]⟩

theorem foldl_noheading (start : Nat) :
    ∀ (lines : List (List Char)) (s : PState),
      (∀ l ∈ lines, isStoryOpen l = false) → s.heading = [] →
      ∃ a i, lines.foldl (stepF start) s =
        { subtasks := s.subtasks, heading := [], body := s.body, ac := a, inAC := i }
  | [], s, _, hh => ⟨s.ac, s.inAC, by cases s; simp_all⟩
  | l :: ls, s, hall, hh => by
    obtain ⟨a, i, hstep⟩ := stepF_noheading start s l (hall l (by simp)) hh
    obtain ⟨a2, i2, hrest⟩ :=
      foldl_noheading start ls (stepF start s l) (fun x hx => hall x (by simp [hx]))
        (by rw [hstep])
    refine ⟨a2, i2, ?_⟩
    rw [List.foldl_cons, hrest, hstep]

theorem stepF_open (start : Nat) (s : PState) (l : List Char)
    (hl : isStoryOpen l = true) :
    stepF start s l =
      { subtasks := (flushF start s).subtasks, heading := headingTextOf (stripL l),
        body := [], ac := [], inAC := false } := by
  have h1 : headingMarker (stripL l) = true := by
    have h := hl
    simp only [isStoryOpen, Bool.and_eq_true, Bool.not_eq_true'] at h
    exact h.1
  have h2 : isExcludedHeading (headingTextOf (stripL l)) = false := by
    have h := hl
    simp only [isStoryOpen, Bool.and_eq_true, Bool.not_eq_true'] at h
    exact h.2
  obtain ⟨hh, hb, ha, hi⟩ := flushF_resets start s
  unfold stepF
  simp [h1, h2, hb, ha, hi]

/-! ## Claim theorems: the parser -/

/-- C5: the AC-subsection scenario. The input
`## Story\nIntro\n### Acceptance Criteria\n- given X\n- then Y\n`, parsed
with start index 0, yields exactly one subtask with acceptance criteria
`["given X", "then Y"]` and details `"Intro"`, the AC lines excluded from
the body. -/
theorem parser_ac_subsection_scenario :
    parse_stories_from_markdown
        "## Story\nIntro\n### Acceptance Criteria\n- given X\n- then Y\n" 0 =
      [{ id := "bmad-001", description := "Story", details := "Intro",
         service := "all", files_to_modify := [], files_to_create := [],
         patterns_from := [], acceptance_criteria := ["given X", "then Y"] }] := by
  decide

/-- C6: an excluded level-2/3 heading (its text contains one of the
keywords, case-insensitively) neither starts a new story nor flushes the
open one: the parser state is unchanged except that the in-AC-section flag
becomes true exactly when the heading contains "acceptance"
(case-insensitively). A document containing only `### Notes\nsome text`
yields zero subtasks. -/
theorem excluded_heading_no_story (start : Nat) (s : PState) (line : List Char)
    (h1 : headingMarker (stripL line) = true)
    (h2 : isExcludedHeading (headingTextOf (stripL line)) = true) :
    stepF start s line =
        { s with inAC := infixOfL "acceptance".toList (lowerL (headingTextOf (stripL line))) } ∧
      parse_stories_from_markdown "### Notes\nsome text" 0 = [] := by
  constructor
  · unfold stepF
    simp [h1, h2]
  · decide

/-- Witness for `excluded_heading_no_story` at a concrete state and a
concrete excluded heading line. -/
theorem excluded_heading_no_story_witness :
    stepF 0 { subtasks := [], heading := "Open".toList, body := ["b".toList],
              ac := ["a".toList], inAC := true } "### Notes".toList =
        { subtasks := [], heading := "Open".toList, body := ["b".toList],
          ac := ["a".toList], inAC := false } ∧
      parse_stories_from_markdown "### Notes\nsome text" 0 = [] := by
  have h := excluded_heading_no_story 0
    { subtasks := [], heading := "Open".toList, body := ["b".toList],
      ac := ["a".toList], inAC := true } "### Notes".toList (by decide) (by decide)
  exact ⟨h.1.trans (by decide), h.2⟩

/-- C8: the parser is total — it is a Lean function defined by structural
recursion, so every input string and start index yields a (possibly empty)
subtask list — and a document with no level-2/3 heading lines yields zero
subtasks. -/
theorem parser_total_no_headings (content : String) (start : Nat) :
    (∃ r, parse_stories_from_markdown content start = r) ∧
      ((∀ l ∈ pySplitlines content.toList, headingMarker (stripL l) = false) →
        parse_stories_from_markdown content start = []) := by
  refine ⟨⟨_, rfl⟩, fun hno => ?_⟩
  have hall : ∀ l ∈ pySplitlines content.toList, isStoryOpen l = false := by
    intro l hl
    unfold isStoryOpen
    simp [hno l hl]
  obtain ⟨a, i, hfold⟩ :=
    foldl_noheading start (pySplitlines content.toList) initPState hall (by simp [initPState])
  unfold parse_stories_from_markdown parseLinesMd
  rw [hfold]
  simp [initPState, flushF]

/-- Witness for `parser_total_no_headings` on a concrete heading-free
document. -/
theorem parser_total_no_headings_witness :
    parse_stories_from_markdown "plain text\n- bullet\ngiven z" 5 = [] :=
  (parser_total_no_headings "plain text\n- bullet\ngiven z" 5).2 (by decide)

/-! ## Decomposition of the parser run -/

/-- The parser loop from an arbitrary state, with the final flush. -/
def runLines (start : Nat) (s : PState) (lines : List (List Char)) : List Subtask :=
  (flushF start (lines.foldl (stepF start) s)).subtasks

theorem runLines_cons (start : Nat) (s : PState) (l : List Char) (ls : List (List Char)) :
    runLines start s (l :: ls) = runLines start (stepF start s l) ls := rfl

theorem runLines_append (start : Nat) (s : PState) (l1 l2 : List (List Char)) :
    runLines start s (l1 ++ l2) = runLines start (l1.foldl (stepF start) s) l2 := by
  simp [runLines, List.foldl_append]

theorem parseLinesMd_eq_runLines (lines : List (List Char)) (start : Nat) :
    parseLinesMd lines start = runLines start initPState lines := rfl

theorem flushF_of_empty_heading (start : Nat) (s : PState) (h : s.heading = []) :
    (flushF start s).subtasks = s.subtasks := by
  unfold flushF
  simp [h]

/-- One parser step from a state whose accumulated subtasks are `sub` is
the same step from the emptied accumulator at a shifted start index, with
`sub` re-prepended. -/
theorem stepF_shift (start : Nat) (l : List Char) (sub : List Subtask)
    (h : List Char) (b a : List (List Char)) (i : Bool) :
    stepF start ⟨sub, h, b, a, i⟩ l =
      { subtasks := sub ++ (stepF (start + sub.length) ⟨[], h, b, a, i⟩ l).subtasks
      , heading := (stepF (start + sub.length) ⟨[], h, b, a, i⟩ l).heading
      , body := (stepF (start + sub.length) ⟨[], h, b, a, i⟩ l).body
      , ac := (stepF (start + sub.length) ⟨[], h, b, a, i⟩ l).ac
      , inAC := (stepF (start + sub.length) ⟨[], h, b, a, i⟩ l).inAC } := by
  unfold stepF
  by_cases h1 : headingMarker (stripL l) = true
  · by_cases h2 : isExcludedHeading (headingTextOf (stripL l)) = true
    · simp [h1, h2]
    · by_cases h3 : h = []
      · simp [h1, h2, h3, flushF]
      · simp [h1, h2, h3, flushF]
  · by_cases h3 : (i && acBulletMarker (stripL l)) = true
    · by_cases h4 : acTextOf (stripL l) = []
      · simp [h1, h3, h4]
      · simp [h1, h3, h4]
    · by_cases h5 : inlineAcMarker (stripL l) = true
      · simp [h1, h3, h5]
      · by_cases h6 : h = []
        · simp [h1, h3, h5, h6]
        · simp [h1, h3, h5, h6]

/-- Accumulated subtasks pass through the rest of the parse unchanged, with
later indices shifted by their count. -/
theorem runLines_shift :
    ∀ (lines : List (List Char)) (start : Nat) (sub : List Subtask)
      (h : List Char) (b a : List (List Char)) (i : Bool),
      runLines start ⟨sub, h, b, a, i⟩ lines =
        sub ++ runLines (start + sub.length) ⟨[], h, b, a, i⟩ lines
  | [], start, sub, h, b, a, i => by
    by_cases hh : h = []
    · simp [runLines, flushF, hh]
    · simp [runLines, flushF, hh]
  | l :: ls, start, sub, h, b, a, i => by
    rw [runLines_cons, runLines_cons, stepF_shift]
    obtain ⟨ts, th, tb, ta, ti⟩ := stepF (start + sub.length) ⟨[], h, b, a, i⟩ l
    rw [runLines_shift ls start (sub ++ ts) th tb ta ti,
      runLines_shift ls (start + sub.length) ts th tb ta ti]
    simp [Nat.add_assoc]

/-! ## Claim theorems: acceptance-criteria locality (C10) -/

/-- The parser state after a story-opening heading line followed by a
segment of non-story-opening lines. -/
def segState (start : Nat) (hLine : List Char) (seg : List (List Char)) : PState :=
  seg.foldl (stepF start) ⟨[], headingTextOf (stripL hLine), [], [], false⟩

/-- The subtasks flushed for one story: the heading line plus the segment
of lines up to (excluding) the next story-opening heading determine them
completely. -/
def mkStorySub (start : Nat) (hLine : List Char) (seg : List (List Char)) : List Subtask :=
  (flushF start (segState start hLine seg)).subtasks

theorem foldl_not_open (start : Nat) :
    ∀ (lines : List (List Char)) (s : PState),
      (∀ l ∈ lines, isStoryOpen l = false) →
      (lines.foldl (stepF start) s).subtasks = s.subtasks ∧
        (lines.foldl (stepF start) s).heading = s.heading
  | [], s, _ => ⟨rfl, rfl⟩
  | l :: ls, s, hall => by
    obtain ⟨hsub, hhead⟩ := stepF_not_open start s l (hall l (by simp))
    obtain ⟨hsub2, hhead2⟩ :=
      foldl_not_open start ls (stepF start s l) (fun x hx => hall x (by simp [hx]))
    rw [List.foldl_cons]
    exact ⟨hsub2.trans hsub, hhead2.trans hhead⟩

/-- C10: acceptance criteria are local to their story. Any prefix of
non-story-opening lines before the first story-opening heading — including
AC subsections and inline `ac:`/`given` lines recognized there — is
discarded by the flush on that heading and contributes to no subtask, and
the first story's subtask is determined by its heading line and its own
segment alone, with the remaining lines parsed independently at the shifted
index. -/
theorem parse_ac_locality (start : Nat) (pre seg rest : List (List Char))
    (hLine : List Char)
    (hpre : ∀ l ∈ pre, isStoryOpen l = false)
    (hopen : isStoryOpen hLine = true)
    (hseg : ∀ l ∈ seg, isStoryOpen l = false)
    (hrest : rest = [] ∨ ∃ r rs, rest = r :: rs ∧ isStoryOpen r = true) :
    parseLinesMd (pre ++ hLine :: (seg ++ rest)) start =
      mkStorySub start hLine seg ++
        parseLinesMd rest (start + (mkStorySub start hLine seg).length) := by
  obtain ⟨a0, i0, hpreState⟩ :=
    foldl_noheading start pre initPState hpre (by simp [initPState])
  rw [parseLinesMd_eq_runLines, runLines_append, hpreState]
  simp only [initPState]
  rw [runLines_cons, stepF_open start _ hLine hopen,
    flushF_of_empty_heading start _ (by simp)]
  simp only []
  rw [runLines_append]
  have hseg1 : (seg.foldl (stepF start)
      ⟨[], headingTextOf (stripL hLine), [], [], false⟩) = segState start hLine seg := rfl
  obtain ⟨hs1sub, hs1head⟩ :=
    foldl_not_open start seg ⟨[], headingTextOf (stripL hLine), [], [], false⟩ hseg
  rcases hrest with hnil | ⟨r, rs, hr, hropen⟩
  · subst hnil
    rw [hseg1]
    simp [runLines, mkStorySub, parseLinesMd_eq_runLines, initPState, flushF]
  · subst hr
    rw [hseg1, runLines_cons, stepF_open start _ r hropen]
    have hflush : (flushF start (segState start hLine seg)).subtasks =
        mkStorySub start hLine seg := rfl
    rw [hflush]
    rw [runLines_shift]
    rw [parseLinesMd_eq_runLines, runLines_cons,
      stepF_open (start + (mkStorySub start hLine seg).length) initPState r hropen,
      flushF_of_empty_heading _ initPState (by simp [initPState])]
    simp [initPState]

/-- Witness for `parse_ac_locality`: acceptance criteria collected before
the first real story heading (via an AC subsection and inline markers)
appear in no subtask. -/
theorem parse_ac_locality_witness :
    parseLinesMd
        (["### Acceptance Criteria".toList, "- early one".toList, "given early".toList] ++
          "## Real Story".toList ::
            (["body line".toList, "given kept".toList] ++ ["## Next".toList])) 0 =
      mkStorySub 0 "## Real Story".toList ["body line".toList, "given kept".toList] ++
        parseLinesMd ["## Next".toList]
          (0 + (mkStorySub 0 "## Real Story".toList
            ["body line".toList, "given kept".toList]).length) :=
  parse_ac_locality 0
    ["### Acceptance Criteria".toList, "- early one".toList, "given early".toList]
    ["body line".toList, "given kept".toList] ["## Next".toList]
    "## Real Story".toList (by decide) (by decide) (by decide)
    (Or.inr ⟨"## Next".toList, [], rfl, by decide⟩)

/-! ## Claim theorems: sequential subtask ids (C7) -/

theorem flushF_ids (start : Nat) (s : PState)
    (h : s.subtasks.map (·.id) =
      (List.range s.subtasks.length).map (fun j => mkId (start + j + 1))) :
    (flushF start s).subtasks.map (·.id) =
      (List.range (flushF start s).subtasks.length).map (fun j => mkId (start + j + 1)) := by
  unfold flushF
  split
  · simpa using h
  · simp [List.range_succ, h]

theorem stepF_ids (start : Nat) (s : PState) (l : List Char)
    (h : s.subtasks.map (·.id) =
      (List.range s.subtasks.length).map (fun j => mkId (start + j + 1))) :
    (stepF start s l).subtasks.map (·.id) =
      (List.range (stepF start s l).subtasks.length).map (fun j => mkId (start + j + 1)) := by
  by_cases ho : isStoryOpen l = true
  · rw [stepF_open start s l ho]
    simpa using flushF_ids start s h
  · obtain ⟨hsub, _⟩ := stepF_not_open start s l (by simpa using ho)
    rw [hsub]
    exact h

theorem foldl_ids (start : Nat) :
    ∀ (lines : List (List Char)) (s : PState),
      s.subtasks.map (·.id) =
        (List.range s.subtasks.length).map (fun j => mkId (start + j + 1)) →
      (lines.foldl (stepF start) s).subtasks.map (·.id) =
        (List.range (lines.foldl (stepF start) s).subtasks.length).map
          (fun j => mkId (start + j + 1))
  | [], _, h => h
  | l :: ls, s, h => by
    rw [List.foldl_cons]
    exact foldl_ids start ls (stepF start s l) (stepF_ids start s l h)

/-- Every parse emits subtasks whose ids continue `bmad-` numbering from
the given start index, in order. -/
theorem parse_stories_ids (content : String) (start : Nat) :
    (parse_stories_from_markdown content start).map (·.id) =
      (List.range (parse_stories_from_markdown content start).length).map
        (fun j => mkId (start + j + 1)) := by
  unfold parse_stories_from_markdown parseLinesMd
  exact flushF_ids start _
    (foldl_ids start (pySplitlines content.toList) initPState (by simp [initPState]))

theorem ids_append (s : Nat) (l1 l2 : List Subtask)
    (h1 : l1.map (·.id) = (List.range l1.length).map (fun j => mkId (s + j + 1)))
    (h2 : l2.map (·.id) =
      (List.range l2.length).map (fun j => mkId (s + l1.length + j + 1))) :
    (l1 ++ l2).map (·.id) =
      (List.range (l1 ++ l2).length).map (fun j => mkId (s + j + 1)) := by
  rw [List.map_append, h1, h2, List.length_append, List.range_add, List.map_append,
    List.map_map]
  congr 1
  apply List.map_congr_left
  intro j _
  have : s + l1.length + j + 1 = s + (l1.length + j) + 1 := by omega
  simp [Function.comp, this]

theorem storyFold_ids (fs : FS) (sdir : FsPath) :
    ∀ (names : List String) (acc : List Subtask) (k : Nat),
      acc.map (·.id) = (List.range acc.length).map (fun j => mkId (j + 1)) →
      k = acc.length →
      ((names.foldl (storyFileFold fs sdir) (acc, k)).1.map (·.id) =
          (List.range (names.foldl (storyFileFold fs sdir) (acc, k)).1.length).map
            (fun j => mkId (j + 1))) ∧
        (names.foldl (storyFileFold fs sdir) (acc, k)).2 =
          (names.foldl (storyFileFold fs sdir) (acc, k)).1.length
  | [], acc, k, h, hk => ⟨h, hk⟩
  | nm :: names, acc, k, h, hk => by
    rw [List.foldl_cons]
    have hstep : storyFileFold fs sdir (acc, k) nm =
        (acc ++ parse_stories_from_markdown
            ((fs.fileContent (sdir ++ [nm])).getD "") k,
          k + (parse_stories_from_markdown
            ((fs.fileContent (sdir ++ [nm])).getD "") k).length) := rfl
    rw [hstep]
    have h0 : acc.map (·.id) =
        (List.range acc.length).map (fun j => mkId (0 + j + 1)) := by simpa using h
    have hp : (parse_stories_from_markdown
        ((fs.fileContent (sdir ++ [nm])).getD "") k).map (·.id) =
        (List.range (parse_stories_from_markdown
          ((fs.fileContent (sdir ++ [nm])).getD "") k).length).map
          (fun j => mkId (0 + acc.length + j + 1)) := by
      rw [parse_stories_ids]
      simp [hk]
    have happ := ids_append 0 acc _ h0 hp
    exact storyFold_ids fs sdir names _ _ (by simpa using happ) (by simp [hk])

/-- A spec directory with a consolidated `stories.md` yielding two subtasks
and an `extra.md` (sorted after it) yielding one. -/
def planFixtureFS : FS :=
  ⟨[(["s", "bmad", "stories", "stories.md"], "## One\nA\n## Two\nB\n"),
    (["s", "bmad", "stories", "extra.md"], "## Three\nC\n")],
   [["s", "bmad", "stories"]]⟩

/-- C7: in every generated plan, subtask ids are `bmad-` plus the 1-based,
3-digit zero-padded position (`mkId`), assigned in document order with a
running offset across source documents; concretely, a consolidated
`stories.md` producing two subtasks followed by `extra.md` producing one
yields exactly `bmad-001 .. bmad-003` in that order. -/
theorem plan_ids_sequential (fs : FS) (sd : FsPath) :
    ((stories_to_implementation_plan fs sd).map (·.id) =
        (List.range (stories_to_implementation_plan fs sd).length).map
          (fun j => mkId (j + 1))) ∧
      (stories_to_implementation_plan planFixtureFS ["s"]).map (·.id) =
        ["bmad-001", "bmad-002", "bmad-003"] ∧
      (stories_to_implementation_plan planFixtureFS ["s"]).map (·.description) =
        ["One", "Two", "Three"] := by
  refine ⟨?_, by decide, by decide⟩
  have hfirst : (if source_content fs sd = "" then []
      else parse_stories_from_markdown (source_content fs sd) 0).map (·.id) =
      (List.range (if source_content fs sd = "" then []
        else parse_stories_from_markdown (source_content fs sd) 0).length).map
        (fun j => mkId (j + 1)) := by
    split
    · simp
    · simpa using parse_stories_ids (source_content fs sd) 0
  simp only [stories_to_implementation_plan]
  by_cases hdir : fs.isDirAt (sd ++ ["bmad", "stories"]) = true
  · simp only [hdir, if_true]
    exact (storyFold_ids fs (sd ++ ["bmad", "stories"]) _ _ _ hfirst rfl).1
  · simp only [Bool.not_eq_true] at hdir
    simp only [hdir, Bool.false_eq_true, if_false]
    exact hfirst

/-! ## Filesystem lemmas -/

theorem find?_setFileEntry_self (l : List (FsPath × String)) (p : FsPath) (c : String) :
    (setFileEntry l p c).find? (·.1 == p) = some (p, c) := by
  induction l with
  | nil => simp [setFileEntry]
  | cons e t ih =>
    by_cases he : e.1 = p
    · simp [setFileEntry, he]
    · simp [setFileEntry, he, ih]

theorem find?_setFileEntry_ne (l : List (FsPath × String)) (p : FsPath) (c : String)
    (q : FsPath) (h : q ≠ p) :
    (setFileEntry l p c).find? (·.1 == q) = l.find? (·.1 == q) := by
  induction l with
  | nil => simp [setFileEntry, Ne.symm h]
  | cons e t ih =>
    by_cases he : e.1 = p
    · by_cases hq : e.1 = q
      · exact absurd (hq.symm.trans he) h
      · have hset : setFileEntry (e :: t) p c = (p, c) :: t := by
          simp [setFileEntry, he]
        rw [hset]
        simp [List.find?_cons, Ne.symm h, hq, he]
    · have hset : setFileEntry (e :: t) p c = e :: setFileEntry t p c := by
        simp [setFileEntry, he]
      rw [hset]
      by_cases hq : e.1 = q
      · simp [List.find?_cons, hq]
      · simp [List.find?_cons, hq, ih]

theorem fileContent_writeFile_self (fs : FS) (p : FsPath) (c : String) :
    (fs.writeFile p c).fileContent p = some c := by
  unfold FS.writeFile FS.fileContent
  simp [find?_setFileEntry_self]

theorem fileContent_writeFile_ne (fs : FS) (p : FsPath) (c : String) (q : FsPath)
    (h : q ≠ p) :
    (fs.writeFile p c).fileContent q = fs.fileContent q := by
  unfold FS.writeFile FS.fileContent
  simp [find?_setFileEntry_ne _ _ _ _ h]

theorem fileContent_addDir (fs : FS) (d : FsPath) (q : FsPath) :
    (fs.addDir d).fileContent q = fs.fileContent q := by
  unfold FS.addDir
  split <;> rfl

/-- Where `save_artifact` leaves every file: the target path holds the new
content, all other paths are untouched. -/
theorem saved_fileContent (fs : FS) (sd : FsPath) (t content : String) (q : FsPath) :
    (save_artifact fs sd t content).fileContent q =
      if q = sd ++ ["bmad", artifactSubdir t, artifactFilename t] then some content
      else fs.fileContent q := by
  unfold save_artifact
  have hpath : (sd ++ ["bmad", artifactSubdir t]) ++ [artifactFilename t] =
      sd ++ ["bmad", artifactSubdir t, artifactFilename t] := by simp
  by_cases hq : q = sd ++ ["bmad", artifactSubdir t, artifactFilename t]
  · rw [if_pos hq, hq, ← hpath, fileContent_writeFile_self]
  · rw [if_neg hq, fileContent_writeFile_ne _ _ _ _ (by rw [hpath]; exact hq),
      fileContent_addDir]

theorem path_ne_of_mid_ne (sd : FsPath) (x y f : String) (h : x ≠ y) :
    sd ++ ["bmad", x, f] ≠ sd ++ ["bmad", y, f] := by
  intro he
  apply h
  have := List.append_cancel_left he
  simpa using this

theorem path_ne_root (sd : FsPath) (x f g : String) :
    sd ++ ["bmad", g] ≠ sd ++ ["bmad", x, f] := by
  intro he
  have := List.append_cancel_left he
  simp at this

/-! ## Claim theorems: artifact round-trip (C3, corrected) -/

/-- A spec directory whose `planning/` already contains `custom.md` — a
file name that an unrecognized ("custom") artifact type also uses. -/
def shadowFixtureFS : FS :=
  ⟨[(["s", "bmad", "planning", "custom.md"], "old")], []⟩

/-- C3 counterexample: saving a custom-typed artifact writes to
`reviews/custom.md`, but loading searches `planning/` first and returns the
pre-existing shadowing file, so save-then-load does not return the saved
content for every directory state. -/
theorem roundtrip_shadow_counterexample :
    load_artifact (save_artifact shadowFixtureFS ["s"] "custom" "new") ["s"] "custom" =
        some "old" ∧
      ("old" : String) ≠ "new" := by
  exact ⟨by decide, by decide⟩

/-- The subdirectories `load_artifact` searches before the one a given
target subdirectory is stored in. -/
def searchedBefore (sub : String) : List String :=
  if sub = "planning" then []
  else if sub = "stories" then ["planning"]
  else ["planning", "stories"]

/-- C3 amended: `save_artifact` followed by `load_artifact` returns exactly
the saved content for every recognized and custom type, provided no
subdirectory searched before the type's target subdirectory already holds a
file with the type's filename (in particular, always, for planning-stored
types, and from a fresh artifact structure for all types). -/
theorem save_load_roundtrip (fs : FS) (sd : FsPath) (t content : String)
    (hclear : ∀ d ∈ searchedBefore (artifactSubdir t),
      fs.fileContent (sd ++ ["bmad", d, artifactFilename t]) = none) :
    load_artifact (save_artifact fs sd t content) sd t = some content := by
  have hsub : artifactSubdir t = "planning" ∨ artifactSubdir t = "stories" ∨
      artifactSubdir t = "reviews" := by
    unfold artifactSubdir
    split_ifs <;> simp
  have hself : (save_artifact fs sd t content).fileContent
      (sd ++ ["bmad", artifactSubdir t, artifactFilename t]) = some content := by
    rw [saved_fileContent]
    simp
  have hother : ∀ d, d ≠ artifactSubdir t →
      (save_artifact fs sd t content).fileContent
        (sd ++ ["bmad", d, artifactFilename t]) = fs.fileContent
          (sd ++ ["bmad", d, artifactFilename t]) := by
    intro d hd
    rw [saved_fileContent, if_neg (path_ne_of_mid_ne sd d (artifactSubdir t)
      (artifactFilename t) hd)]
  rcases hsub with h | h | h
  · have e1 := hself
    rw [h] at e1
    simp [load_artifact, List.findSome?_cons, show (sd ++ ["bmad"]) ++
      ["planning", artifactFilename t] = sd ++ ["bmad", "planning", artifactFilename t]
      from by simp, e1]
  · have e1 : (save_artifact fs sd t content).fileContent
        (sd ++ ["bmad", "planning", artifactFilename t]) = none := by
      rw [hother "planning" (by rw [h]; decide)]
      exact hclear "planning" (by rw [h]; simp [searchedBefore])
    have e2 := hself
    rw [h] at e2
    simp [load_artifact, List.findSome?_cons, show (sd ++ ["bmad"]) ++
      ["planning", artifactFilename t] = sd ++ ["bmad", "planning", artifactFilename t]
      from by simp, show (sd ++ ["bmad"]) ++
      ["stories", artifactFilename t] = sd ++ ["bmad", "stories", artifactFilename t]
      from by simp, e1, e2]
  · have e1 : (save_artifact fs sd t content).fileContent
        (sd ++ ["bmad", "planning", artifactFilename t]) = none := by
      rw [hother "planning" (by rw [h]; decide)]
      exact hclear "planning" (by rw [h]; simp [searchedBefore])
    have e2 : (save_artifact fs sd t content).fileContent
        (sd ++ ["bmad", "stories", artifactFilename t]) = none := by
      rw [hother "stories" (by rw [h]; decide)]
      exact hclear "stories" (by rw [h]; simp [searchedBefore])
    have e3 := hself
    rw [h] at e3
    simp [load_artifact, List.findSome?_cons, show (sd ++ ["bmad"]) ++
      ["planning", artifactFilename t] = sd ++ ["bmad", "planning", artifactFilename t]
      from by simp, show (sd ++ ["bmad"]) ++
      ["stories", artifactFilename t] = sd ++ ["bmad", "stories", artifactFilename t]
      from by simp, show (sd ++ ["bmad"]) ++
      ["reviews", artifactFilename t] = sd ++ ["bmad", "reviews", artifactFilename t]
      from by simp, e1, e2, e3]

/-- Witness for `save_load_roundtrip`: a custom type saved into an empty
filesystem round-trips. -/
theorem save_load_roundtrip_witness :
    load_artifact (save_artifact ⟨[], []⟩ ["s"] "custom" "text") ["s"] "custom" =
      some "text" :=
  save_load_roundtrip ⟨[], []⟩ ["s"] "custom" "text" (by decide)

/-! ## Claim theorems: glob fallback order (C1, corrected) -/

/-- Modelled from the spec's words ("take the lexicographically-first match
if any"): the lexicographic minimum of a list of names. Used only to
compare the spec's rule with the code's behavior. -/
def specLexFirst (l : List String) : Option String :=
  (sortedPy l).head?

/-- A workflow directory holding two files matching `*template*.md`, listed
in an iteration order that is not sorted (as `os.scandir` may do). -/
def globFixtureFS : FS :=
  ⟨[(["wf", "zeta-template.md"], "a"), (["wf", "alpha-template.md"], "b")], [["wf"]]⟩

/-- C1 counterexample: with no explicit key and no convention file, the
glob fallback returns the first match in directory iteration order
(`matches[0]` of an unsorted `Path.glob` listing), which here is
`zeta-template.md`, not the lexicographically-first match
`alpha-template.md`. -/
theorem glob_not_lex_first_counterexample :
    resolve_ref globFixtureFS ["wf"] [] ["template"] =
        some ["wf", "zeta-template.md"] ∧
      specLexFirst (globMatchesIn globFixtureFS ["wf"] "template" ".md") =
        some "alpha-template.md" ∧
      (["wf", "zeta-template.md"] : FsPath) ≠ ["wf", "alpha-template.md"] := by
  exact ⟨by decide, by decide, by decide⟩

theorem findSome?_append_of_none {α β : Type} (f : α → Option β) (l1 l2 : List α)
    (h : ∀ x ∈ l1, f x = none) :
    List.findSome? f (l1 ++ l2) = List.findSome? f l2 := by
  induction l1 with
  | nil => rfl
  | cons a t ih =>
    rw [List.cons_append, List.findSome?_cons, h a (by simp)]
    exact ih (fun x hx => h x (by simp [hx]))

/-- C1 amended: when neither an explicit string key nor a convention
filename resolves the reference, the glob fallback applies: for the first
(key, extension) combination — keys in order, `.md` before `.xml` — whose
glob has matches, the resolved path is the first matching file in directory
iteration order (the order `Path.glob` yields), which need not be the
lexicographically-first match. -/
theorem glob_first_in_dir_order (fs : FS) (wdir : FsPath) (data : WDict)
    (keys : List String) (pre rest : List (String × String)) (k ext m : String)
    (hy : yamlRefStage fs wdir data keys = none)
    (hc : conventionStage fs wdir keys = none)
    (hsplit : globPairs keys = pre ++ (k, ext) :: rest)
    (hpre : ∀ pr ∈ pre, globMatchesIn fs wdir pr.1 pr.2 = [])
    (hm : (globMatchesIn fs wdir k ext).head? = some m) :
    resolve_ref fs wdir data keys = some (wdir ++ [m]) := by
  unfold resolve_ref
  rw [hy, hc]
  unfold globStage
  rw [hsplit, findSome?_append_of_none _ pre _ (fun pr hpr => by simp [hpre pr hpr]),
    List.findSome?_cons]
  simp [hm]

/-- Witness for `glob_first_in_dir_order` on the fixture directory. -/
theorem glob_first_in_dir_order_witness :
    resolve_ref globFixtureFS ["wf"] [] ["template"] =
      some (["wf"] ++ ["zeta-template.md"]) :=
  glob_first_in_dir_order globFixtureFS ["wf"] [] ["template"] []
    [("template", ".xml")] "template" ".md" "zeta-template.md"
    (by decide) (by decide) (by decide) (by simp) (by decide)

/-! ## Claim theorems: consolidated source selection (C2, corrected) -/

/-- A spec directory where the consolidated stories artifact exists with
empty content and the epics artifact exists with nonempty content. -/
def srcFixtureFS : FS :=
  ⟨[(["s", "bmad", "stories", "stories.md"], ""),
    (["s", "bmad", "stories", "epics.md"], "## E\nbody")], [["s", "bmad", "stories"]]⟩

/-- C2 counterexample: the stories artifact is present (not the not-found
sentinel) but empty, and the source text nevertheless comes from the epics
artifact — `stories_content or epics_content or ""` treats the empty string
like an absent artifact. -/
theorem stories_empty_falls_back_counterexample :
    load_artifact srcFixtureFS ["s"] "stories" = some "" ∧
      source_content srcFixtureFS ["s"] = "## E\nbody" ∧
      ("## E\nbody" : String) ≠ "" := by
  exact ⟨by decide, by decide, by decide⟩

/-- C2 amended: the consolidated stories artifact is the source whenever it
is present with nonempty content; when it is absent or its content is
empty, the source text is the epics artifact's content (empty when that is
absent or empty too). -/
theorem source_selection_amended (fs : FS) (sd : FsPath) :
    (∀ s, load_artifact fs sd "stories" = some s → s ≠ "" →
        source_content fs sd = s) ∧
      ((load_artifact fs sd "stories").getD "" = "" →
        source_content fs sd = (load_artifact fs sd "epics").getD "") := by
  constructor
  · intro s hs hne
    unfold source_content pyOrStr
    rw [hs]
    simp [hne]
  · intro h
    unfold source_content pyOrStr
    rw [h]
    simp

/-- A spec directory with nonempty consolidated stories and epics. -/
def srcFixtureFS2 : FS :=
  ⟨[(["s", "bmad", "stories", "stories.md"], "S"),
    (["s", "bmad", "stories", "epics.md"], "E")], []⟩

/-- Witness for `source_selection_amended`: nonempty stories content wins;
empty stories content yields the epics content. -/
theorem source_selection_amended_witness :
    source_content srcFixtureFS2 ["s"] = "S" ∧
      source_content srcFixtureFS ["s"] = "## E\nbody" := by
  constructor
  · exact (source_selection_amended srcFixtureFS2 ["s"]).1 "S" (by decide) (by decide)
  · rw [(source_selection_amended srcFixtureFS ["s"]).2 (by decide)]
    decide

/-! ## Claim theorems: workflow loader failure modes (C4) -/

/-- C4: directory resolution fails with the configuration error exactly
when no workflow name is given and the phase is not in the static map;
otherwise, with the resolved (phase-dir, name) pair, it fails with the
not-found error exactly when `root/phaseDir/workflowName` is not an
existing directory, and succeeds otherwise — there are no other failure
modes. -/
theorem load_workflow_failure_modes (fs : FS) (phase : String)
    (wname : Option String) (base : FsPath) (yparse : String → WDict) :
    (resolvedPair phase wname = none ↔
        (wname = none ∧ phaseWorkflowLookup phase = none)) ∧
      (resolvedPair phase wname = none →
        load_workflow fs phase wname base yparse = .error .configurationRequired) ∧
      (∀ pd wn, resolvedPair phase wname = some (pd, wn) →
        (fs.isDirAt (base ++ [pd, wn]) = false →
            load_workflow fs phase wname base yparse = .error .workflowDirNotFound) ∧
          (fs.isDirAt (base ++ [pd, wn]) = true →
            ∃ r, load_workflow fs phase wname base yparse = .ok r)) := by
  refine ⟨?_, ?_, ?_⟩
  · cases wname with
    | none => simp [resolvedPair]
    | some n => simp [resolvedPair]
  · intro h
    unfold load_workflow
    rw [h]
  · intro pd wn h
    constructor
    · intro hdir
      unfold load_workflow
      rw [h]
      simp [hdir]
    · intro hdir
      unfold load_workflow
      rw [h]
      simp only [hdir, if_true]
      exact ⟨_, rfl⟩

/-- Witness for `load_workflow_failure_modes`: on an empty filesystem, a
mapped phase hits the not-found error and an unmapped phase without an
explicit name hits the configuration error. -/
theorem load_workflow_failure_modes_witness :
    load_workflow (⟨[], []⟩ : FS) "prd" none ["root"] (fun _ => []) =
        .error .workflowDirNotFound ∧
      load_workflow (⟨[], []⟩ : FS) "nophase" none ["root"] (fun _ => []) =
        .error .configurationRequired := by
  constructor
  · exact ((load_workflow_failure_modes ⟨[], []⟩ "prd" none ["root"]
      (fun _ => [])).2.2 "2-planning" "create-prd" (by decide)).1 (by decide)
  · exact (load_workflow_failure_modes ⟨[], []⟩ "nophase" none ["root"]
      (fun _ => [])).2.1 (by decide)

/-! ## Dictionary lemmas -/

theorem dictGet_cons (e : String × WVal) (t : WDict) (k : String) :
    dictGet (e :: t) k = if e.1 = k then some e.2 else dictGet t k := by
  by_cases he : e.1 = k <;> simp [dictGet, List.find?_cons, he]

theorem dictGet_dictSet_self (d : WDict) (k : String) (v : WVal) :
    dictGet (dictSet d k v) k = some v := by
  induction d with
  | nil => simp [dictSet, dictGet_cons, dictGet]
  | cons e t ih =>
    by_cases he : e.1 = k
    · simp [dictSet, he, dictGet_cons]
    · have hset : dictSet (e :: t) k v = e :: dictSet t k v := by simp [dictSet, he]
      rw [hset, dictGet_cons, if_neg he]
      exact ih

theorem dictGet_dictSet_ne (d : WDict) (k : String) (v : WVal) (k' : String)
    (h : k' ≠ k) :
    dictGet (dictSet d k v) k' = dictGet d k' := by
  induction d with
  | nil => simp [dictSet, dictGet_cons, dictGet, Ne.symm h]
  | cons e t ih =>
    by_cases he : e.1 = k
    · rw [show dictSet (e :: t) k v = (k, v) :: t from by simp [dictSet, he],
        dictGet_cons, dictGet_cons, if_neg (Ne.symm h),
        if_neg (fun hek : e.1 = k' => h (hek.symm.trans he))]
    · rw [show dictSet (e :: t) k v = e :: dictSet t k v from by simp [dictSet, he],
        dictGet_cons, dictGet_cons, ih]

theorem dictGet_dictUpdate (es : WDict) :
    ∀ (d : WDict) (k : String),
      dictGet (dictUpdate d es) k =
        match dictGet (dictUpdate [] es) k with
        | some v => some v
        | none => dictGet d k := by
  intro d k
  induction es generalizing d with
  | nil => simp [dictUpdate, dictGet]
  | cons e t ih =>
    rw [show dictUpdate d (e :: t) = dictUpdate (dictSet d e.1 e.2) t from rfl,
      show dictUpdate [] (e :: t) = dictUpdate (dictSet [] e.1 e.2) t from rfl,
      ih (dictSet d e.1 e.2), ih (dictSet [] e.1 e.2)]
    cases hscrut : dictGet (dictUpdate [] t) k
    · by_cases hk : e.1 = k
      · have h1 : dictGet (dictSet d e.1 e.2) k = some e.2 :=
          hk ▸ dictGet_dictSet_self d e.1 e.2
        have h2 : dictGet (dictSet [] e.1 e.2) k = some e.2 :=
          hk ▸ dictGet_dictSet_self [] e.1 e.2
        rw [h1, h2]
      · have h1 : dictGet (dictSet d e.1 e.2) k = dictGet d k :=
          dictGet_dictSet_ne d e.1 e.2 k (fun hke => hk hke.symm)
        have h2 : dictGet (dictSet [] e.1 e.2) k = none :=
          (dictGet_dictSet_ne [] e.1 e.2 k (fun hke => hk hke.symm)).trans
            (by simp [dictGet])
        rw [h1, h2]
    · simp

/-! ## Claim theorems: resolution wins over raw YAML keys (C9) -/

theorem yamlRefStage_congr (fs : FS) (wdir : FsPath) (d1 d2 : WDict)
    (keys : List String)
    (h : ∀ key ∈ keys, dictGet d1 key = dictGet d2 key) :
    yamlRefStage fs wdir d1 keys = yamlRefStage fs wdir d2 keys := by
  induction keys with
  | nil => rfl
  | cons a t ih =>
    have ht := ih (fun key hk => h key (by simp [hk]))
    simp only [yamlRefStage] at ht ⊢
    rw [List.findSome?_cons, List.findSome?_cons, h a (by simp), ht]

theorem resolve_ref_congr (fs : FS) (wdir : FsPath) (d1 d2 : WDict)
    (keys : List String)
    (h : ∀ key ∈ keys, dictGet d1 key = dictGet d2 key) :
    resolve_ref fs wdir d1 keys = resolve_ref fs wdir d2 keys := by
  unfold resolve_ref
  rw [yamlRefStage_congr fs wdir d1 d2 keys h]

theorem resolve_ref_dictSet_notin (fs : FS) (wdir : FsPath) (d : WDict)
    (k : String) (v : WVal) (keys : List String) (h : ∀ key ∈ keys, key ≠ k) :
    resolve_ref fs wdir (dictSet d k v) keys = resolve_ref fs wdir d keys :=
  resolve_ref_congr fs wdir _ d keys
    (fun key hk => dictGet_dictSet_ne d k v key (h key hk))

/-- C9: on every successful load, the `instructions_path`,
`checklist_path`, and `template_path` entries of the result are exactly the
outputs of the file-reference resolution algorithm run against the
post-merge dictionary — a top-level YAML key of any of those names cannot
survive, because the resolved values are written after the merge — whereas
a top-level YAML key named `workflow_dir` does replace the seeded
workflow-directory entry, while resolution still uses the real directory
`base/phaseDir/workflowName`. -/
theorem load_workflow_resolved_refs (fs : FS) (phase : String)
    (wname : Option String) (base : FsPath) (yparse : String → WDict)
    (pd wn : String) (r : WDict)
    (hpair : resolvedPair phase wname = some (pd, wn))
    (hok : load_workflow fs phase wname base yparse = .ok r) :
    dictGet r "instructions_path" =
        some (refVal (resolve_ref fs (base ++ [pd, wn])
          (mergeStage fs (base ++ [pd, wn]) yparse) ["instructions"])) ∧
      dictGet r "checklist_path" =
        some (refVal (resolve_ref fs (base ++ [pd, wn])
          (mergeStage fs (base ++ [pd, wn]) yparse) ["validation", "checklist"])) ∧
      dictGet r "template_path" =
        some (refVal (resolve_ref fs (base ++ [pd, wn])
          (mergeStage fs (base ++ [pd, wn]) yparse) ["template"])) ∧
      (∀ raw v, fs.fileContent ((base ++ [pd, wn]) ++ ["workflow.yaml"]) = some raw →
        dictGet (dictUpdate [] (yparse raw)) "workflow_dir" = some v →
        dictGet r "workflow_dir" = some v) := by
  unfold load_workflow at hok
  rw [hpair] at hok
  by_cases hdir : fs.isDirAt (base ++ [pd, wn]) = true
  · simp only [hdir, if_true, Except.ok.injEq] at hok
    subst hok
    refine ⟨?_, ?_, ?_, ?_⟩
    · rw [dictGet_dictSet_ne _ _ _ _ (by decide), dictGet_dictSet_ne _ _ _ _ (by decide),
        dictGet_dictSet_self]
    · rw [dictGet_dictSet_ne _ _ _ _ (by decide), dictGet_dictSet_self,
        resolve_ref_dictSet_notin _ _ _ _ _ _ (by decide)]
    · rw [dictGet_dictSet_self,
        resolve_ref_dictSet_notin _ _ _ _ _ _ (by decide),
        resolve_ref_dictSet_notin _ _ _ _ _ _ (by decide)]
    · intro raw v hraw hv
      rw [dictGet_dictSet_ne _ _ _ _ (by decide), dictGet_dictSet_ne _ _ _ _ (by decide),
        dictGet_dictSet_ne _ _ _ _ (by decide)]
      unfold mergeStage
      rw [hraw, dictGet_dictUpdate, hv]
  · simp [hdir] at hok

/-- A workflow directory with a YAML definition whose parse result carries
fake `workflow_dir` and `instructions_path` keys plus an `instructions`
reference with a path prefix. -/
def wfFixtureFS : FS :=
  ⟨[(["root", "2-planning", "create-prd", "workflow.yaml"], "raw"),
    (["root", "2-planning", "create-prd", "instructions.md"], "ins")],
   [["root", "2-planning", "create-prd"]]⟩

def wfFixtureParse : String → WDict := fun _ =>
  [("workflow_dir", WVal.vstr "FAKE"),
   ("instructions_path", WVal.vstr "FAKE2"),
   ("instructions", WVal.vstr "path/instructions.md")]

/-- The dictionary `load_workflow` returns on the fixture. -/
def wfFixtureResult : WDict :=
  [("workflow_dir", WVal.vstr "FAKE"),
   ("instructions_path",
     WVal.vpath ["root", "2-planning", "create-prd", "instructions.md"]),
   ("instructions", WVal.vstr "path/instructions.md"),
   ("checklist_path", WVal.vnone),
   ("template_path", WVal.vnone)]

/-- Witness for `load_workflow_resolved_refs`: on the fixture, the fake
`instructions_path` is replaced by the resolution output and the fake
`workflow_dir` survives. -/
theorem load_workflow_resolved_refs_witness :
    dictGet wfFixtureResult "instructions_path" =
        some (refVal (resolve_ref wfFixtureFS ["root", "2-planning", "create-prd"]
          (mergeStage wfFixtureFS ["root", "2-planning", "create-prd"] wfFixtureParse)
          ["instructions"])) ∧
      dictGet wfFixtureResult "workflow_dir" = some (WVal.vstr "FAKE") := by
  have h := load_workflow_resolved_refs wfFixtureFS "prd" none ["root"] wfFixtureParse
    "2-planning" "create-prd" wfFixtureResult (by decide) (by rfl)
  exact ⟨h.1, h.2.2.2 "raw" (WVal.vstr "FAKE") (by decide) (by decide)⟩

end BMADStudio
